import Mathlib

/-!
Verification of the credential-proxy server (`src/server/`).

Strings from the Python source are modelled as `List Char`; bytes produced by
percent-decoding are modelled as Latin-1 characters, which agrees with
Python's UTF-8 decoding on the ASCII characters the theorems talk about.
Side effects (network calls, subprocess spawns, file writes) are modelled as
explicit traces returned alongside each function's result.
-/

/-- Python `str.strip()` whitespace, restricted to the ASCII whitespace
characters Python strips. -/
def isPyWs (c : Char) : Bool :=
  c == ' ' || c == '\t' || c == '\n' || c == '\r' || c == '\x0b' || c == '\x0c'

/-- Python `str.strip()`: drop leading and trailing whitespace. -/
def pyStrip (l : List Char) : List Char :=
  ((l.dropWhile isPyWs).reverse.dropWhile isPyWs).reverse

/-- The test `startsWithL needle hay` is Python `hay.startswith(needle)`. -/
def startsWithL : List Char → List Char → Bool
  | [], _ => true
  | _ :: _, [] => false
  | a :: as, b :: bs => a == b && startsWithL as bs

/-- The test `endsWithL needle hay` is Python `hay.endswith(needle)`. -/
def endsWithL (needle hay : List Char) : Bool :=
  startsWithL needle.reverse hay.reverse

/-- The test `hasSub needle hay` is Python `needle in hay` (substring test). -/
def hasSub (needle : List Char) : List Char → Bool
  | [] => needle.isEmpty
  | hay@(_ :: t) => startsWithL needle hay || hasSub needle t

/-- Hex digit test used by URL percent-decoding. -/
def isHexDigitC (c : Char) : Bool :=
  c.isDigit || ('a' ≤ c && c ≤ 'f') || ('A' ≤ c && c ≤ 'F')

/-- Value of a hex digit. -/
def hexVal (c : Char) : Nat :=
  if c.isDigit then c.toNat - 48
  else if 'a' ≤ c && c ≤ 'f' then c.toNat - 87
  else c.toNat - 55

/-- Python `urllib.parse.unquote`: decode `%XX` escapes, leaving malformed
escapes untouched.  Decoded bytes are modelled as Latin-1 characters. -/
def unquoteL : List Char → List Char
  | [] => []
  | '%' :: a :: b :: rest =>
    if isHexDigitC a && isHexDigitC b then
      Char.ofNat (16 * hexVal a + hexVal b) :: unquoteL rest
    else
      '%' :: unquoteL (a :: b :: rest)
  | c :: rest => c :: unquoteL rest

-- ============================================================
-- git_safety.py
-- ============================================================

/-- The characters of the `_SHELL_METACHARACTERS` class of
`git_safety.py`. -/
def META_CHARS : List Char :=
  [';', '&', '|', '\x60', '$', '(', ')', '\x7b', '\x7d', '!', '\x27',
   '\x22', '\\', '<', '>', '\n', '\r', '\x00']

/-- Membership in the `_SHELL_METACHARACTERS` class of `git_safety.py`. -/
def isMeta (c : Char) : Bool := META_CHARS.contains c

/-- Character class `[A-Za-z0-9._-]` used for GitHub owner and repo names. -/
def ownerRepoChar (c : Char) : Bool :=
  c.isAlphanum || c == '.' || c == '_' || c == '-'

/-- Matches `owner/repo` where owner and repo are nonempty strings over
`[A-Za-z0-9._-]`.  Because `.git` is itself made of those characters, the
regex tail `[A-Za-z0-9._-]+(\.git)?` denotes exactly such strings. -/
def ownerRepoMatch (l : List Char) : Bool :=
  let o := l.takeWhile (fun c => c != '/')
  match l.drop o.length with
  | '/' :: r => !o.isEmpty && o.all ownerRepoChar && !r.isEmpty && r.all ownerRepoChar
  | _ => false

/-- The regex `_GITHUB_HTTPS_PATTERN` of `git_safety.py`. -/
def githubHttpsMatch (l : List Char) : Bool :=
  startsWithL "https://github.com/".toList l && ownerRepoMatch (l.drop 19)

/-- The regex `_GITHUB_SSH_PATTERN` of `git_safety.py`. -/
def githubSshMatch (l : List Char) : Bool :=
  startsWithL "git@github.com:".toList l && ownerRepoMatch (l.drop 15)

/-- A string matching either GitHub URL pattern.  This is also the spec's
"matching https://github.com/owner/repo[.git] or git@github.com:owner/repo[.git]"
language, applied to the raw string. -/
def githubUrlMatch (l : List Char) : Bool :=
  githubHttpsMatch l || githubSshMatch l

/-- Model of `validate_repo_url` of `git_safety.py`. -/
def validate_repo_url (url : List Char) : Bool × List Char :=
  if url.isEmpty || (pyStrip url).isEmpty then
    (false, "Repository URL is required".toList)
  else
    let u := pyStrip url
    if u.any isMeta then
      (false, "Repository URL contains invalid characters".toList)
    else if u.elem '@' && !startsWithL "git@".toList u then
      (false, "Repository URL must not contain embedded credentials".toList)
    else if startsWithL "/".toList u || startsWithL "file://".toList u ||
        startsWithL ".".toList u then
      (false, "Only remote GitHub repository URLs are allowed (not local paths)".toList)
    else if githubHttpsMatch u then (true, [])
    else if githubSshMatch u then (true, [])
    else
      (false, "Repository URL must be a GitHub URL (https://github.com/owner/repo or git@github.com:owner/repo.git)".toList)

/-- Character class `[-A-Za-z0-9._/]` for inner branch-name characters. -/
def branchMidChar (c : Char) : Bool :=
  c.isAlphanum || c == '.' || c == '_' || c == '/' || c == '-'

/-- The regex `_BRANCH_NAME_PATTERN` of `git_safety.py`: an alphanumeric
character, then inner characters from `[-A-Za-z0-9._/]`, ending with an
alphanumeric character; or a single alphanumeric character. -/
def branchPattern (l : List Char) : Bool :=
  match l with
  | [] => false
  | [c] => c.isAlphanum
  | c :: rest =>
    c.isAlphanum && rest.dropLast.all branchMidChar && (rest.getLastD ' ').isAlphanum

/-- Model of `validate_branch_name` of `git_safety.py`. -/
def validate_branch_name (branch : List Char) : Bool × List Char :=
  if branch.isEmpty || (pyStrip branch).isEmpty then
    (false, "Branch name is required".toList)
  else
    let b := pyStrip branch
    if b.any isMeta then
      (false, "Branch name contains invalid characters".toList)
    else if startsWithL "-".toList b then
      (false, "Branch name must not start with a hyphen".toList)
    else if hasSub "..".toList b then
      (false, "Branch name must not contain '..'".toList)
    else if endsWithL ".lock".toList b then
      (false, "Branch name must not end with '.lock'".toList)
    else if startsWithL "refs/".toList b then
      (false, "Branch name must not start with 'refs/'".toList)
    else if !branchPattern b then
      (false, "Branch name must contain only letters, numbers, hyphens, underscores, forward slashes, and dots".toList)
    else if b.length > 255 then
      (false, "Branch name is too long (max 255 characters)".toList)
    else (true, [])

/-- Model of `PROTECTED_BRANCHES` of `git_safety.py`. -/
def PROTECTED_BRANCHES : List (List Char) :=
  ["main", "master", "production", "release", "develop"].map String.toList

/-- Model of `is_protected_branch` of `git_safety.py`. -/
def is_protected_branch (branch : List Char) : Bool × List Char :=
  if branch.isEmpty then (true, "Branch name is required".toList)
  else
    let n := (pyStrip branch).map Char.toLower
    if PROTECTED_BRANCHES.contains n then
      (true,
        "Direct push to '".toList ++ branch ++
        "' is blocked. Protected branches (develop, main, master, production, release) must be updated through pull requests.".toList)
    else (false, [])

/-- Model of `DANGEROUS_PUSH_FLAGS` of `git_safety.py`. -/
def DANGEROUS_PUSH_FLAGS : List (List Char) :=
  ["--force", "-f", "--force-with-lease", "--delete", "--mirror",
   "--force-if-includes"].map String.toList

/-- Model of `validate_push_command_safety` of `git_safety.py`: first loop scans for
dangerous flags, second loop for colon-prefixed deletion syntax. -/
def validate_push_command_safety (args : List (List Char)) : Bool × List Char :=
  match args.find? (fun a => DANGEROUS_PUSH_FLAGS.contains a) with
  | some a => (false, "Dangerous git push flag detected: ".toList ++ a)
  | none =>
    match args.find? (fun a => startsWithL ":".toList a && a.length > 1) with
    | some a => (false, "Remote branch deletion syntax detected: ".toList ++ a)
    | none => (true, [])

-- ============================================================
-- proxy.py
-- ============================================================

/-- ASCII lower-casing used for header-name comparison (Python `str.lower`
restricted to ASCII, which covers every header name the policy names). -/
def lowerStr (s : String) : String := String.mk (s.data.map Char.toLower)

/-- ASCII upper-casing (Python `str.upper` on ASCII method names). -/
def upperStr (s : String) : String := String.mk (s.data.map Char.toUpper)

/-- Model of `ALLOWED_FORWARD_HEADERS` of `proxy.py`. -/
def ALLOWED_FORWARD_HEADERS : List String :=
  ["content-type", "accept", "accept-language", "accept-encoding",
   "user-agent", "content-length", "content-encoding"]

/-- Model of `EXCLUDED_RESPONSE_HEADERS` of `proxy.py`. -/
def EXCLUDED_RESPONSE_HEADERS : List String :=
  ["connection", "keep-alive", "transfer-encoding", "content-encoding",
   "content-length"]

/-- Model of `filter_request_headers` of `proxy.py`. -/
def filter_request_headers (headers : List (String × String)) : List (String × String) :=
  headers.filter (fun kv => ALLOWED_FORWARD_HEADERS.contains (lowerStr kv.1))

/-- Model of `filter_response_headers` of `proxy.py`. -/
def filter_response_headers (headers : List (String × String)) : List (String × String) :=
  headers.filter (fun kv => !EXCLUDED_RESPONSE_HEADERS.contains (lowerStr kv.1))

/-- Python `rstrip("/")`. -/
def rstripSlash (l : List Char) : List Char :=
  (l.reverse.dropWhile (fun c => c == '/')).reverse

/-- Scheme characters accepted by `urllib.parse.urlsplit`. -/
def schemeChar (c : Char) : Bool := c.isAlphanum || c == '+' || c == '-' || c == '.'

/-- The part of a URL after its scheme marker, per `urllib.parse.urlsplit`. -/
def dropScheme (u : List Char) : List Char :=
  let pre := u.takeWhile (fun c => c != ':')
  match u.drop pre.length with
  | ':' :: rest =>
    (match pre with
     | [] => u
     | c :: cs => if c.isAlpha && cs.all schemeChar then rest else u)
  | _ => u

/-- The component `urlparse(u).netloc`: the authority between `//` and the next `/`, `?`
or `#`; empty when the URL has no `//` marker after its scheme. -/
def netlocOf (u : List Char) : List Char :=
  let rest := dropScheme u
  if startsWithL "//".toList rest then
    (rest.drop 2).takeWhile (fun c => c != '/' && c != '?' && c != '#')
  else []

/-- A credential as the forwarder sees it: its base URL and its
`inject_auth` behaviour. -/
structure FwdCred where
  base_url : List Char
  injectAuth : List (String × String) → List Char → List (String × String) × List Char

/-- Behaviour of the upstream HTTP call made by `requests.request`. -/
inductive UpstreamResult where
  | ok (status : Nat) (headers : List (String × String)) (contentType : Option String) (body : List Char)
  | timeout
  | connError
  | exn

/-- The upstream request issued by `forward_request`, when one is issued. -/
structure UpstreamReq where
  method : String
  url : List Char
  headers : List (String × String)
  body : Option (List Char)

/-- A Flask `Response` as far as the claims observe it. -/
structure FwdResponse where
  status : Nat
  body : List Char
  headers : List (String × String)
  contentType : String

/-- Body of the 404 unknown-service response of `forward_request`. -/
def unknownServiceBody (service : String) : List Char :=
  "\x7b\"error\": \"unknown service: ".toList ++ service.toList ++ "\"\x7d".toList

/-- Body of the 400 path-traversal response of `forward_request`. -/
def pathTraversalBody : List Char :=
  "\x7b\"error\": \"path traversal detected\"\x7d".toList

/-- Body of the 400 host-mismatch response of `forward_request`. -/
def hostMismatchBody : List Char :=
  "\x7b\"error\": \"proxy target host mismatch\"\x7d".toList

/-- Model of `forward_request` of `proxy.py`.  The credential-store lookup result and
the upstream behaviour are inputs; the returned `Option UpstreamReq` is the
upstream request issued, if any. -/
def forward_request (service : String) (path : List Char) (method : String)
    (headers : List (String × String)) (body : Option (List Char))
    (query_string : List Char) (cred? : Option FwdCred)
    (upstream : UpstreamResult) : FwdResponse × Option UpstreamReq :=
  match cred? with
  | none => (⟨404, unknownServiceBody service, [], "application/json"⟩, none)
  | some cred =>
    let base_url := rstripSlash cred.base_url
    let target_url := base_url ++ '/' :: path
    let decoded_path := unquoteL path
    if hasSub "..".toList decoded_path || hasSub "..".toList path then
      (⟨400, pathTraversalBody, [], "application/json"⟩, none)
    else if !(netlocOf target_url == netlocOf base_url) then
      (⟨400, hostMismatchBody, [], "application/json"⟩, none)
    else
      let target_url := if !query_string.isEmpty then target_url ++ '?' :: query_string
        else target_url
      let forward_headers := filter_request_headers headers
      let (forward_headers, target_url) := cred.injectAuth forward_headers target_url
      let req : UpstreamReq := ⟨method, target_url, forward_headers, body⟩
      match upstream with
      | .ok st hs ct bd =>
        (⟨st, bd, filter_response_headers hs, ct.getD "application/octet-stream"⟩, some req)
      | .timeout =>
        (⟨504, "\x7b\"error\": \"upstream timeout\"\x7d".toList, [], "application/json"⟩, some req)
      | .connError =>
        (⟨502, "\x7b\"error\": \"upstream connection failed\"\x7d".toList, [], "application/json"⟩, some req)
      | .exn =>
        (⟨500, "\x7b\"what\": \"Proxy error occurred\", \"why\": \"Request forwarding failed\", \"action\": \"Check proxy server logs for details\"\x7d".toList, [], "application/json"⟩, some req)

-- ============================================================
-- service_filters.py
-- ============================================================

/-- Python `"..".split("/")`: split on slashes keeping empty pieces. -/
def splitOnSlash : List Char → List (List Char)
  | [] => [[]]
  | c :: rest =>
    match splitOnSlash rest with
    | [] => [[c]]
    | h :: t => if c == '/' then [] :: h :: t else (c :: h) :: t

/-- The `_parse_gmail_segments` helper of `service_filters.py`: strip the
`gmail/v1/users/(userId)/` prefix (userId nonempty, slash-free) and split
the rest into nonempty segments. -/
def parseGmailSegments (path : List Char) : Option (List (List Char)) :=
  if startsWithL "gmail/v1/users/".toList path then
    let tail := path.drop 15
    let userId := tail.takeWhile (fun c => c != '/')
    match userId, tail.drop userId.length with
    | _ :: _, '/' :: rest =>
      if rest.isEmpty then none
      else some ((splitOnSlash rest).filter (fun s => !s.isEmpty))
    | _, _ => none
  else none

/-- Model of `_GMAIL_KNOWN_RESOURCES` of `service_filters.py`. -/
def GMAIL_KNOWN_RESOURCES : List (List Char) :=
  ["messages", "threads", "drafts", "labels", "profile", "history",
   "settings"].map String.toList

/-- Model of `validate_gmail_endpoint` of `service_filters.py`: block rules first,
then allow rules, then default deny. -/
def validate_gmail_endpoint (method : String) (path : List Char) : Bool × List Char :=
  let m := upperStr method
  match parseGmailSegments path with
  | none => (false, "Invalid Gmail API path format (expected gmail/v1/users/\x7buserId\x7d/...)".toList)
  | some segments =>
    if segments.isEmpty then
      (false, "No resource specified in Gmail API path".toList)
    else
      let resource := segments.headD []
      let last_segment := segments.getLastD []
      if last_segment == "send".toList then
        (false, "Sending email is blocked by proxy policy (use drafts instead)".toList)
      else if resource == "settings".toList then
        (false, "Gmail settings endpoints are blocked by proxy policy (forwarding, delegates, filters)".toList)
      else if m == "DELETE" && (resource == "messages".toList || resource == "threads".toList) then
        (false, "Permanent deletion of messages/threads is blocked (use trash instead)".toList)
      else if last_segment == "batchDelete".toList then
        (false, "Batch deletion is blocked by proxy policy (use trash instead)".toList)
      else if m == "POST" && resource == "messages".toList && segments.length == 1 then
        (false, "Message insert is blocked by proxy policy".toList)
      else if resource == "messages".toList && decide (2 ≤ segments.length) && segments.getD 1 [] == "import".toList then
        (false, "Message import is blocked by proxy policy".toList)
      else if m == "GET" && GMAIL_KNOWN_RESOURCES.contains resource then (true, [])
      else if resource == "drafts".toList && (m == "GET" || m == "POST" || m == "PUT" || m == "DELETE") then (true, [])
      else if resource == "labels".toList && (m == "GET" || m == "POST" || m == "PUT" || m == "PATCH" || m == "DELETE") then (true, [])
      else if m == "POST" && last_segment == "modify".toList then (true, [])
      else if m == "POST" && resource == "messages".toList && last_segment == "batchModify".toList then (true, [])
      else if m == "POST" && (last_segment == "trash".toList || last_segment == "untrash".toList) then (true, [])
      else if resource == "profile".toList && m == "GET" then (true, [])
      else if resource == "history".toList && m == "GET" then (true, [])
      else (false, "Endpoint not in allowlist: ".toList ++ m.toList ++ ' ' :: path)

-- ============================================================
-- credentials.py — token caching and refresh
-- ============================================================

/-- The fields of the JSON body returned by the ATProto `createSession` and
`refreshSession` endpoints. -/
structure ATData where
  accessJwt : String
  refreshJwt : String
  did : String
  handle : String
deriving DecidableEq, Repr

/-- The cached `ATProtoSession` dataclass of `credentials.py`.  Times are in
seconds. -/
structure ATProtoSession where
  access_jwt : String
  refresh_jwt : String
  did : String
  handle : String
  expires_at : Int
deriving DecidableEq, Repr

/-- The ATProto-relevant state of a `ServiceCredential`. -/
structure ATCred where
  identifier : Option String
  app_password : Option String
  session : Option ATProtoSession
deriving DecidableEq, Repr

/-- Network behaviour of the two ATProto endpoints: `none` models a
`RequestException` (timeout, connection failure, or HTTP error status). -/
structure ATNet where
  refreshResult : Option ATData
  createResult : Option ATData
deriving DecidableEq, Repr

/-- One network call issued by the ATProto token getter. -/
inductive ATCall where
  | refresh
  | create
deriving DecidableEq, Repr

/-- Python truthiness of an optional string (`None` and `""` are falsy). -/
def optStrTruthy : Option String → Bool
  | none => false
  | some s => !s.isEmpty

/-- Model of `ServiceCredential._create_atproto_session`.  Returns the success flag,
the updated credential state, and the network calls issued. -/
def createAtprotoSession (now : Int) (cred : ATCred) (net : ATNet) :
    Bool × ATCred × List ATCall :=
  if !optStrTruthy cred.identifier || !optStrTruthy cred.app_password then
    (false, cred, [])
  else
    match net.createResult with
    | some d =>
      (true,
       { cred with session := some ⟨d.accessJwt, d.refreshJwt, d.did, d.handle, now + 7200⟩ },
       [ATCall.create])
    | none => (false, cred, [ATCall.create])

/-- Model of `ServiceCredential._refresh_atproto_session`.  On a network failure the
cached session is cleared. -/
def refreshAtprotoSession (now : Int) (cred : ATCred) (net : ATNet) :
    Bool × ATCred × List ATCall :=
  match cred.session with
  | none => (false, cred, [])
  | some _ =>
    match net.refreshResult with
    | some d =>
      (true,
       { cred with session := some ⟨d.accessJwt, d.refreshJwt, d.did, d.handle, now + 7200⟩ },
       [ATCall.refresh])
    | none => (false, { cred with session := none }, [ATCall.refresh])

/-- Model of `ServiceCredential._get_atproto_token`: return the cached access token
while it is more than 5 minutes from expiry; otherwise refresh, and on
refresh failure fall through to creating a new session. -/
def getAtprotoToken (now : Int) (cred : ATCred) (net : ATNet) :
    Option String × ATCred × List ATCall :=
  match cred.session with
  | some s =>
    if now + 300 < s.expires_at then (some s.access_jwt, cred, [])
    else
      let (ok, cred1, c1) := refreshAtprotoSession now cred net
      if ok then (cred1.session.map ATProtoSession.access_jwt, cred1, c1)
      else
        let (ok2, cred2, c2) := createAtprotoSession now cred1 net
        (if ok2 then cred2.session.map ATProtoSession.access_jwt else none, cred2, c1 ++ c2)
  | none =>
    let (ok2, cred2, c2) := createAtprotoSession now cred net
    (if ok2 then cred2.session.map ATProtoSession.access_jwt else none, cred2, c2)

/-- The cached `OAuth2Token` dataclass of `credentials.py`. -/
structure OAuth2Token where
  access_token : String
  expires_at : Int
deriving DecidableEq, Repr

/-- The OAuth2-relevant state of a `ServiceCredential`. -/
structure OAuthCred where
  client_id : Option String
  client_secret : Option String
  refresh_token : Option String
  token : Option OAuth2Token
deriving DecidableEq, Repr

/-- Network behaviour of the OAuth2 token endpoint: on success the response
carries `access_token` and an optional `expires_in` (default 3600). -/
structure OAuthNet where
  refreshResult : Option (String × Option Int)
deriving DecidableEq, Repr

/-- Model of `ServiceCredential._refresh_oauth2_token`.  Returns the success flag,
the updated credential state, and the number of network calls issued. -/
def refreshOauth2Token (now : Int) (cred : OAuthCred) (net : OAuthNet) :
    Bool × OAuthCred × Nat :=
  if !optStrTruthy cred.client_id || !optStrTruthy cred.client_secret ||
      !optStrTruthy cred.refresh_token then
    (false, cred, 0)
  else
    match net.refreshResult with
    | some (tok, ein) =>
      (true, { cred with token := some ⟨tok, now + ein.getD 3600⟩ }, 1)
    | none => (false, { cred with token := none }, 1)

/-- Model of `ServiceCredential._get_oauth2_token`: return the cached token while it
is more than 5 minutes from expiry; otherwise refresh. -/
def getOauth2Token (now : Int) (cred : OAuthCred) (net : OAuthNet) :
    Option String × OAuthCred × Nat :=
  let refreshPath :=
    let (ok, cred1, n) := refreshOauth2Token now cred net
    ((if ok then cred1.token.map OAuth2Token.access_token else none), cred1, n)
  match cred.token with
  | some t =>
    if now + 300 < t.expires_at then (some t.access_token, cred, 0)
    else refreshPath
  | none => refreshPath

-- ============================================================
-- proxy_server.py — route handlers
-- ============================================================

/-- The `ttl_minutes` field of the session-creation request body: a JSON
value convertible by `int(...)`, or one raising `TypeError`/`ValueError`. -/
inductive TTLInput where
  | num (n : Int)
  | nonNumeric
deriving DecidableEq, Repr

/-- The ttl computation of `create_session`:
`max(1, min(int(ttl_minutes), 480))`, falling back to 30 when conversion
fails. -/
def clampTtl : TTLInput → Int
  | TTLInput.num n => max 1 (min n 480)
  | TTLInput.nonNumeric => 30

/-- The `services` field of the session-creation request body: a JSON list
of strings, or some other JSON value with the given truthiness. -/
inductive ServicesVal where
  | list (l : List String)
  | nonlist (truthy : Bool)
deriving DecidableEq, Repr

/-- Python truthiness of the `services` value. -/
def servicesTruthy : ServicesVal → Bool
  | ServicesVal.list l => !l.isEmpty
  | ServicesVal.nonlist t => t

/-- A session-creation request as `create_session` observes it: whether the
`X-Auth-Key` matched, the request body fields, the credential-store service
list, and the session id minted by the store. -/
structure SessionReq where
  authOk : Bool
  services : ServicesVal
  ttl : TTLInput
  available : List String
  freshId : String

/-- The success body of `create_session`. -/
structure CreateSessionResp where
  session_id : String
  expires_in_minutes : Int
  services : List String
deriving DecidableEq, Repr

/-- The `create_session` route handler of `proxy_server.py`; errors carry
the HTTP status and error message. -/
def create_session (req : SessionReq) : Except (Nat × String) CreateSessionResp :=
  if !req.authOk then Except.error (401, "unauthorized")
  else if !servicesTruthy req.services then Except.error (400, "services list is required")
  else
    match req.services with
    | ServicesVal.nonlist _ => Except.error (400, "services must be a list")
    | ServicesVal.list l =>
      if !(l.filter (fun s => !(req.available.contains s || s == "git"))).isEmpty then
        Except.error (400, "unknown services")
      else Except.ok ⟨req.freshId, clampTtl req.ttl, l⟩

/-- A stored session as the session store sees it. -/
structure StoredSession where
  services : List String
  expires_at : Int
deriving DecidableEq, Repr

/-- Model of `SessionStore.get` with lazy expiry: a stored session is returned only
while `now ≤ expires_at`. -/
def sessionGet (store : List (String × StoredSession)) (now : Int)
    (sid : String) : Option StoredSession :=
  match store.lookup sid with
  | some s => if s.expires_at < now then none else some s
  | none => none

/-- Observable outcome of the `/proxy/(service)/(path)` route handler. -/
inductive ProxyOutcome where
  | gitRejected
  | missingSession
  | invalidSession
  | serviceForbidden (service : String)
  | forwarded (resp : FwdResponse) (req : Option UpstreamReq)

/-- HTTP status of a `ProxyOutcome`. -/
def ProxyOutcome.status : ProxyOutcome → Nat
  | gitRejected => 400
  | missingSession => 401
  | invalidSession => 401
  | serviceForbidden _ => 403
  | forwarded r _ => r.status

/-- The `error` field of the JSON body returned with a `ProxyOutcome`. -/
def ProxyOutcome.errorText : ProxyOutcome → Option String
  | gitRejected => some "git is not a proxy service"
  | missingSession => some "missing X-Session-Id header"
  | invalidSession => some "invalid or expired session"
  | serviceForbidden service => some ("session does not have access to " ++ service)
  | forwarded _ _ => none

/-- The `proxy_request` route handler of `proxy_server.py`: the `git`
rejection is evaluated before any authentication check. -/
def proxy_request (service : String) (rest : List Char) (method : String)
    (headers : List (String × String)) (sessionHeader : Option String)
    (store : List (String × StoredSession)) (now : Int)
    (body : Option (List Char)) (query_string : List Char)
    (cred? : Option FwdCred) (upstream : UpstreamResult) : ProxyOutcome :=
  if service == "git" then ProxyOutcome.gitRejected
  else
    match sessionHeader with
    | none => ProxyOutcome.missingSession
    | some sid =>
      match sessionGet store now sid with
      | none => ProxyOutcome.invalidSession
      | some session =>
        if !session.services.contains service then ProxyOutcome.serviceForbidden service
        else
          let (resp, req) := forward_request service rest method headers body
            query_string cred? upstream
          ProxyOutcome.forwarded resp req

/-- Effects of the `/git/push-bundle` handler, in program order: each
constructor stands for a file write or subprocess spawn. -/
inductive GitEffect where
  | saveBundle
  | cloneRepo (url : List Char)
  | fetchBundle (branch : List Char)
  | pushCmd (args : List (List Char))
  | ghPrCreate
deriving DecidableEq, Repr

/-- A push-bundle request as the handler observes it. -/
structure PushReq where
  authOk : Bool
  repo_url : Option (List Char)
  branch : Option (List Char)
  bundlePresent : Bool
  create_pr : Bool

/-- Outcomes of the subprocesses `push_bundle` may spawn. -/
structure GitOrc where
  cloneOk : Bool
  fetchOk : Bool
  pushOk : Bool
  ghAvailable : Bool
deriving DecidableEq, Repr

/-- Result of `push_bundle`: HTTP status, optional machine-readable error
code, and the trace of side effects performed. -/
structure PushResult where
  status : Nat
  code : Option String
  effects : List GitEffect

/-- The `push_bundle` route handler of `proxy_server.py`.  Validation runs
before the bundle is saved and before any subprocess is spawned. -/
def push_bundle (req : PushReq) (orc : GitOrc) : PushResult :=
  if !req.authOk then ⟨401, none, []⟩
  else
    let u := req.repo_url.getD []
    let b := req.branch.getD []
    if u.isEmpty || b.isEmpty then ⟨400, none, []⟩
    else if !(validate_repo_url u).1 then ⟨400, some "GIT_SAFETY_INVALID_URL", []⟩
    else if !(validate_branch_name b).1 then ⟨400, some "GIT_SAFETY_INVALID_BRANCH", []⟩
    else if ( is_protected_branch b).1 then ⟨403, some "GIT_SAFETY_PROTECTED_BRANCH", []⟩
    else if !req.bundlePresent then ⟨400, none, []⟩
    else
      let e1 := [GitEffect.saveBundle, GitEffect.cloneRepo u]
      if !orc.cloneOk then ⟨500, none, e1⟩
      else
        let e2 := e1 ++ [GitEffect.fetchBundle b]
        if !orc.fetchOk then ⟨500, none, e2⟩
        else
          let push_cmd := ["git", "push", "origin"].map String.toList ++ [b]
          if !(validate_push_command_safety push_cmd).1 then
            ⟨403, some "GIT_SAFETY_DANGEROUS_COMMAND", e2⟩
          else
            let e3 := e2 ++ [GitEffect.pushCmd push_cmd]
            if !orc.pushOk then ⟨500, none, e3⟩
            else
              let e4 := if req.create_pr && orc.ghAvailable then e3 ++ [GitEffect.ghPrCreate] else e3
              ⟨200, none, e4⟩

-- ============================================================
-- Derived condition predicates and concrete instances
-- ============================================================

/-- Disjunction of the block-rule guards of `validate_gmail_endpoint`,
applied to an already upper-cased method. -/
def gmailBlockCond (m : String) (segments : List (List Char)) : Bool :=
  let resource := segments.headD []
  let last_segment := segments.getLastD []
  last_segment == "send".toList ||
  resource == "settings".toList ||
  (m == "DELETE" && (resource == "messages".toList || resource == "threads".toList)) ||
  last_segment == "batchDelete".toList ||
  (m == "POST" && resource == "messages".toList && segments.length == 1) ||
  (resource == "messages".toList && decide (2 ≤ segments.length) && segments.getD 1 [] == "import".toList)

/-- Disjunction of the allow-rule guards of `validate_gmail_endpoint`,
applied to an already upper-cased method. -/
def gmailAllowCond (m : String) (segments : List (List Char)) : Bool :=
  let resource := segments.headD []
  let last_segment := segments.getLastD []
  (m == "GET" && GMAIL_KNOWN_RESOURCES.contains resource) ||
  (resource == "drafts".toList && (m == "GET" || m == "POST" || m == "PUT" || m == "DELETE")) ||
  (resource == "labels".toList && (m == "GET" || m == "POST" || m == "PUT" || m == "PATCH" || m == "DELETE")) ||
  (m == "POST" && last_segment == "modify".toList) ||
  (m == "POST" && resource == "messages".toList && last_segment == "batchModify".toList) ||
  (m == "POST" && (last_segment == "trash".toList || last_segment == "untrash".toList)) ||
  (resource == "profile".toList && m == "GET") ||
  (resource == "history".toList && m == "GET")

/-- A sample credential for concrete forwarder runs. -/
def sampleCred : FwdCred := ⟨"https://example.com".toList, fun h u => (h, u)⟩

/-- An ATProto credential whose cached session expires at time 100. -/
def atStaleCred : ATCred :=
  ⟨some "id", some "pw", some ⟨"jwtA", "jwtR", "did:x", "h.bsky", 100⟩⟩

/-- Network behaviour where `refreshSession` fails and `createSession`
succeeds. -/
def atFailNet : ATNet := ⟨none, some ⟨"jwtA2", "jwtR2", "did:x", "h.bsky"⟩⟩

-- ============================================================
-- Helper lemmas
-- ============================================================

/-- Looking a key up in a key-filtered association list. -/
theorem lookup_filterKey (p : String → Bool) (k : String)
    (hs : List (String × String)) :
    (hs.filter (fun kv => p kv.1)).lookup k = if p k then hs.lookup k else none := by
  induction hs with
  | nil => simp
  | cons a t ih =>
    obtain ⟨a1, a2⟩ := a
    rw [List.filter_cons]
    by_cases hpa : p a1
    · simp only [hpa, if_true]
      cases hbeq : (k == a1) with
      | true =>
        have hk : k = a1 := beq_iff_eq.mp hbeq
        simp [List.lookup, hbeq, hk ▸ hpa]
      | false => simp [List.lookup, hbeq, ih]
    · have hpa' : p a1 = false := by simpa using hpa
      simp only [hpa', Bool.false_eq_true, if_false]
      cases hbeq : (k == a1) with
      | true =>
        have hk : k = a1 := beq_iff_eq.mp hbeq
        rw [ih, hk, hpa']
        simp [List.lookup, hbeq]
      | false => simp [List.lookup, hbeq, ih]

-- ============================================================
-- Claim theorems
-- ============================================================

/-- C1: `forward_request` returns HTTP 400 with the path-traversal body and
issues no upstream request whenever the raw path or its URL-decoded form
contains `..`; the three example paths give 400, and `v1/ok` against a 200
upstream gives 200. -/
theorem forward_request_blocks_traversal :
    (∀ (service : String) (path : List Char) (method : String)
      (headers : List (String × String)) (body : Option (List Char))
      (qs : List Char) (cred : FwdCred) (up : UpstreamResult),
      hasSub "..".toList path = true ∨ hasSub "..".toList (unquoteL path) = true →
      forward_request service path method headers body qs (some cred) up =
        (⟨400, pathTraversalBody, [], "application/json"⟩, none)) ∧
    hasSub "path traversal".toList pathTraversalBody = true ∧
    (forward_request "bsky" "../etc/passwd".toList "GET" [] none []
      (some sampleCred) (UpstreamResult.ok 200 [] none [])).1.status = 400 ∧
    (forward_request "bsky" "%2e%2e/x".toList "GET" [] none []
      (some sampleCred) (UpstreamResult.ok 200 [] none [])).1.status = 400 ∧
    (forward_request "bsky" "a/../b".toList "GET" [] none []
      (some sampleCred) (UpstreamResult.ok 200 [] none [])).1.status = 400 ∧
    (forward_request "bsky" "v1/ok".toList "GET" [] none []
      (some sampleCred) (UpstreamResult.ok 200 [] none [])).1.status = 200 := by
  refine ⟨?_, by decide, rfl, rfl, rfl, rfl⟩
  intro service path method headers body qs cred up h
  have hcond : (hasSub "..".toList (unquoteL path) || hasSub "..".toList path) = true := by
    rcases h with h | h
    · rw [h, Bool.or_true]
    · rw [h, Bool.true_or]
  unfold forward_request
  simp only [hcond, if_true]

/-- Witness for C1 at the concrete path `a/../b`. -/
theorem forward_request_blocks_traversal_witness :
    forward_request "bsky" "a/../b".toList "GET" [] none []
      (some sampleCred) UpstreamResult.timeout =
      (⟨400, pathTraversalBody, [], "application/json"⟩, none) :=
  forward_request_blocks_traversal.1 "bsky" "a/../b".toList "GET" [] none []
    sampleCred UpstreamResult.timeout (Or.inl (by decide))

/-- C2: the filtered forward headers only ever contain allowlisted keys; two
header maps that agree on the allowlisted keys filter identically; and
cookies, authorization, session and auth-key headers, and Host can never
appear in the filtered output. -/
theorem filter_request_headers_allowlist :
    (∀ (hs : List (String × String)) (kv : String × String),
      kv ∈ filter_request_headers hs →
      ALLOWED_FORWARD_HEADERS.contains (lowerStr kv.1) = true) ∧
    (∀ h1 h2 : List (String × String),
      (∀ k, ALLOWED_FORWARD_HEADERS.contains (lowerStr k) = true →
        h1.lookup k = h2.lookup k) →
      ∀ k, (filter_request_headers h1).lookup k = (filter_request_headers h2).lookup k) ∧
    (∀ (hs : List (String × String)) (kv : String × String),
      kv ∈ filter_request_headers hs →
      lowerStr kv.1 ≠ "cookie" ∧ lowerStr kv.1 ≠ "authorization" ∧
      lowerStr kv.1 ≠ "x-session-id" ∧ lowerStr kv.1 ≠ "x-auth-key" ∧
      lowerStr kv.1 ≠ "host") := by
  have hmem : ∀ (hs : List (String × String)) (kv : String × String),
      kv ∈ filter_request_headers hs →
      ALLOWED_FORWARD_HEADERS.contains (lowerStr kv.1) = true := by
    intro hs kv h
    exact (List.mem_filter.mp h).2
  refine ⟨hmem, ?_, ?_⟩
  · intro h1 h2 hag k
    unfold filter_request_headers
    rw [lookup_filterKey (fun s => ALLOWED_FORWARD_HEADERS.contains (lowerStr s)),
      lookup_filterKey (fun s => ALLOWED_FORWARD_HEADERS.contains (lowerStr s))]
    split
    · exact hag k (by assumption)
    · rfl
  · intro hs kv h
    have ha := hmem hs kv h
    have hmem2 : lowerStr kv.1 = "content-type" ∨ lowerStr kv.1 = "accept" ∨
        lowerStr kv.1 = "accept-language" ∨ lowerStr kv.1 = "accept-encoding" ∨
        lowerStr kv.1 = "user-agent" ∨ lowerStr kv.1 = "content-length" ∨
        lowerStr kv.1 = "content-encoding" := by
      have : lowerStr kv.1 ∈ ALLOWED_FORWARD_HEADERS := by simpa using ha
      simpa [ALLOWED_FORWARD_HEADERS] using this
    rcases hmem2 with h2 | h2 | h2 | h2 | h2 | h2 | h2 <;> rw [h2] <;>
      refine ⟨by decide, by decide, by decide, by decide, by decide⟩

/-- Witness for C2: an `Accept` header survives filtering and its lowercase
key is allowlisted. -/
theorem filter_request_headers_allowlist_witness :
    ALLOWED_FORWARD_HEADERS.contains (lowerStr ("Accept", "x").1) = true :=
  filter_request_headers_allowlist.1 [("Accept", "x"), ("Cookie", "y")]
    ("Accept", "x") (by decide)

/-- C7: every successful admin session creation reports
`expires_in_minutes` in `[1, 480]`, and in-range as well as out-of-range
numeric TTLs succeed (silently clamped) whenever the request is otherwise
well-formed. -/
theorem create_session_ttl_clamped :
    (∀ (req : SessionReq) (resp : CreateSessionResp),
      create_session req = Except.ok resp →
      1 ≤ resp.expires_in_minutes ∧ resp.expires_in_minutes ≤ 480) ∧
    (∀ (req : SessionReq) (l : List String), req.authOk = true →
      req.services = ServicesVal.list l → l ≠ [] →
      l.filter (fun s => !(req.available.contains s || s == "git")) = [] →
      create_session req = Except.ok ⟨req.freshId, clampTtl req.ttl, l⟩) := by
  constructor
  · intro req resp h
    have hb : 1 ≤ clampTtl req.ttl ∧ clampTtl req.ttl ≤ 480 := by
      cases req.ttl with
      | num n => simp only [clampTtl]; omega
      | nonNumeric => simp only [clampTtl]; omega
    unfold create_session at h
    split at h
    · exact absurd h (by simp)
    · split at h
      · exact absurd h (by simp)
      · split at h
        · exact absurd h (by simp)
        · split at h
          · exact absurd h (by simp)
          · cases h
            simpa using hb
  · intro req l ha hs hne hf
    have htr' : servicesTruthy (ServicesVal.list l) = true := by
      cases l with
      | nil => exact absurd rfl hne
      | cons x xs => rfl
    have hno : (l.filter (fun s => !(req.available.contains s || s == "git"))).isEmpty = true := by
      rw [hf]
      rfl
    simp [create_session, ha, hs, htr', hno]
    intro x hx hnx
    have h3 := List.filter_eq_nil_iff.mp hf x hx
    have h4 : x ∉ req.available → x = "git" := by simpa using h3
    exact h4 hnx

/-- Witness for C7: a TTL of 1000000 minutes is accepted and clamped to
480. -/
theorem create_session_ttl_clamped_witness :
    1 ≤ ({ session_id := "sid", expires_in_minutes := 480, services := ["git"] } :
      CreateSessionResp).expires_in_minutes ∧
    ({ session_id := "sid", expires_in_minutes := 480, services := ["git"] } :
      CreateSessionResp).expires_in_minutes ≤ 480 :=
  create_session_ttl_clamped.1
    ⟨true, ServicesVal.list ["git"], TTLInput.num 1000000, [], "sid"⟩ _ rfl

/-- C9: every `/proxy/git/...` request is rejected with the 400
git-is-not-a-proxy-service error before any authentication check, while a
request for any other service with no session header gets 401. -/
theorem proxy_request_git_rejected :
    (∀ (rest : List Char) (method : String) (headers : List (String × String))
      (sh : Option String) (store : List (String × StoredSession)) (now : Int)
      (body : Option (List Char)) (qs : List Char) (cred? : Option FwdCred)
      (up : UpstreamResult),
      proxy_request "git" rest method headers sh store now body qs cred? up =
        ProxyOutcome.gitRejected) ∧
    ProxyOutcome.gitRejected.status = 400 ∧
    ProxyOutcome.gitRejected.errorText = some "git is not a proxy service" ∧
    (∀ (service : String) (rest : List Char) (method : String)
      (headers : List (String × String)) (store : List (String × StoredSession))
      (now : Int) (body : Option (List Char)) (qs : List Char)
      (cred? : Option FwdCred) (up : UpstreamResult), service ≠ "git" →
      proxy_request service rest method headers none store now body qs cred? up =
        ProxyOutcome.missingSession) := by
  refine ⟨?_, rfl, rfl, ?_⟩
  · intro rest method headers sh store now body qs cred? up
    simp [proxy_request]
  · intro service rest method headers store now body qs cred? up h
    simp [proxy_request, h]

/-- Witness for C9: a sessionless request for `bsky` yields the 401
missing-session outcome, not the git rejection. -/
theorem proxy_request_git_rejected_witness :
    proxy_request "bsky" "v1/ok".toList "GET" [] none [] 0 none [] none
      UpstreamResult.timeout = ProxyOutcome.missingSession :=
  proxy_request_git_rejected.2.2.2 "bsky" "v1/ok".toList "GET" [] [] 0 none []
    none UpstreamResult.timeout (by decide)

/-- C8: in `push_bundle`, an invalid repo URL, an invalid branch name, or a
protected branch is rejected with a 400/403 before the bundle is saved and
before any subprocess is spawned: the effect trace is empty. -/
theorem push_bundle_validates_before_effects :
    ∀ (req : PushReq) (orc : GitOrc) (u b : List Char),
      req.authOk = true → req.repo_url = some u → req.branch = some b →
      u.isEmpty = false → b.isEmpty = false →
      ((validate_repo_url u).1 = false ∨ (validate_branch_name b).1 = false ∨
        ( is_protected_branch b).1 = true) →
      (push_bundle req orc).effects = [] ∧
      ((push_bundle req orc).status = 400 ∨ (push_bundle req orc).status = 403) := by
  intro req orc u b ha hu hb hue hbe hval
  by_cases h1 : (validate_repo_url u).1
  · by_cases h2 : (validate_branch_name b).1
    · by_cases h3 : ( is_protected_branch b).1
      · simp [push_bundle, ha, hu, hb, hue, hbe, h1, h2, h3]
      · rcases hval with h | h | h
        · exact absurd h1 (by simp [h])
        · exact absurd h2 (by simp [h])
        · exact absurd h (by simp [h3])
    · simp [push_bundle, ha, hu, hb, hue, hbe, h1, h2]
  · simp [push_bundle, ha, hu, hb, hue, hbe, h1]

/-- Witness for C8: pushing to the protected branch `main` is rejected with
403 and an empty effect trace. -/
theorem push_bundle_validates_before_effects_witness :
    (push_bundle ⟨true, some "https://github.com/a/b".toList, some "main".toList,
      true, false⟩ ⟨true, true, true, true⟩).effects = [] ∧
    ((push_bundle ⟨true, some "https://github.com/a/b".toList, some "main".toList,
      true, false⟩ ⟨true, true, true, true⟩).status = 400 ∨
     (push_bundle ⟨true, some "https://github.com/a/b".toList, some "main".toList,
      true, false⟩ ⟨true, true, true, true⟩).status = 403) :=
  push_bundle_validates_before_effects _ _ _ _ rfl rfl rfl (by decide) (by decide)
    (Or.inr (Or.inr (by decide)))

/-- A list starting with a pattern still starts with it after appending. -/
theorem startsWith_append_right (p : List Char) :
    ∀ l t, startsWithL p l = true → startsWithL p (l ++ t) = true := by
  induction p with
  | nil => intro l t _; rfl
  | cons a as ih =>
    intro l t h
    cases l with
    | nil => exact absurd h (by simp [startsWithL])
    | cons b bs =>
      simp only [startsWithL, Bool.and_eq_true] at h ⊢
      exact ⟨h.1, ih bs t h.2⟩

/-- A substring of a list is a substring of any right extension. -/
theorem hasSub_append_left (n : List Char) :
    ∀ a b, hasSub n a = true → hasSub n (a ++ b) = true := by
  intro a
  induction a with
  | nil =>
    intro b h
    have hn : n = [] := by
      cases n with
      | nil => rfl
      | cons c cs => exact absurd h (by simp [hasSub])
    subst hn
    cases b with
    | nil => rfl
    | cons c cs => simp [hasSub, startsWithL]
  | cons a as ih =>
    intro b h
    simp only [hasSub, Bool.or_eq_true] at h ⊢
    rcases h with h | h
    · exact Or.inl (startsWith_append_right n (a :: as) b h)
    · exact Or.inr (ih b h)

/-- C5: `validate_gmail_endpoint` denies every parsed Gmail path whose last
segment is `send` for every method (deny rules run before allow rules, so
`drafts/.../send` is denied even though drafts CRUD is allowed); it allows
`GET gmail/v1/users/me/drafts`; and any parsed request matching neither a
block rule nor an allow rule is denied with the allowlist reason. -/
theorem validate_gmail_endpoint_policy :
    (∀ (m : String) (p : List Char) (segs : List (List Char)),
      parseGmailSegments p = some segs → segs.getLastD [] = "send".toList →
      validate_gmail_endpoint m p =
        (false, "Sending email is blocked by proxy policy (use drafts instead)".toList)) ∧
    (validate_gmail_endpoint "POST" "gmail/v1/users/me/messages/send".toList).1 = false ∧
    (validate_gmail_endpoint "POST" "gmail/v1/users/me/drafts/d1/send".toList).1 = false ∧
    (validate_gmail_endpoint "DELETE" "gmail/v1/users/me/drafts/d1/send".toList).1 = false ∧
    validate_gmail_endpoint "GET" "gmail/v1/users/me/drafts".toList = (true, []) ∧
    (∀ (m : String) (p : List Char) (segs : List (List Char)),
      parseGmailSegments p = some segs → segs.isEmpty = false →
      gmailBlockCond (upperStr m) segs = false →
      gmailAllowCond (upperStr m) segs = false →
      validate_gmail_endpoint m p =
        (false, "Endpoint not in allowlist: ".toList ++ (upperStr m).toList ++ ' ' :: p) ∧
      hasSub "allowlist".toList (validate_gmail_endpoint m p).2 = true) := by
  have orFalse : ∀ a b : Bool, (a || b) = false → a = false ∧ b = false := by
    intro a b h
    cases a <;> cases b <;> simp_all
  refine ⟨?_, by decide, by decide, by decide, by decide, ?_⟩
  · intro m p segs hparse hlast
    have hne : segs.isEmpty = false := by
      cases segs with
      | nil => exact absurd hlast (by decide)
      | cons a t => rfl
    have hsend : (segs.getLastD [] == "send".toList) = true := by
      rw [hlast]
      exact beq_self_eq_true _
    simp only [validate_gmail_endpoint, hparse]
    rw [hne]
    simp only [Bool.false_eq_true, if_false]
    rw [hsend]
    simp only [eq_self_iff_true, if_true]
  · intro m p segs hparse hne hb hal
    rw [gmailBlockCond] at hb
    rw [gmailAllowCond] at hal
    obtain ⟨hb, h6⟩ := orFalse _ _ hb
    obtain ⟨hb, h5⟩ := orFalse _ _ hb
    obtain ⟨hb, h4⟩ := orFalse _ _ hb
    obtain ⟨hb, h3⟩ := orFalse _ _ hb
    obtain ⟨h1, h2⟩ := orFalse _ _ hb
    obtain ⟨hal, a8⟩ := orFalse _ _ hal
    obtain ⟨hal, a7⟩ := orFalse _ _ hal
    obtain ⟨hal, a6⟩ := orFalse _ _ hal
    obtain ⟨hal, a5⟩ := orFalse _ _ hal
    obtain ⟨hal, a4⟩ := orFalse _ _ hal
    obtain ⟨hal, a3⟩ := orFalse _ _ hal
    obtain ⟨a1, a2⟩ := orFalse _ _ hal
    have heq : validate_gmail_endpoint m p =
        (false, "Endpoint not in allowlist: ".toList ++ (upperStr m).toList ++ ' ' :: p) := by
      simp only [validate_gmail_endpoint, hparse]
      rw [hne]
      simp only [Bool.false_eq_true, if_false]
      rw [h1, h2, h3, h4, h5, h6, a1, a2, a3, a4, a5, a6, a7, a8]
      simp only [Bool.false_eq_true, if_false]
    refine ⟨heq, ?_⟩
    rw [heq]
    exact hasSub_append_left _ _ _
      (hasSub_append_left _ _ _ (by decide))

/-- Witness for C5: `PATCH` on a draft's `send` endpoint is denied by the
send rule, and `PUT` on `gmail/v1/users/me/history` hits the default
allowlist denial. -/
theorem validate_gmail_endpoint_policy_witness :
    validate_gmail_endpoint "PATCH" "gmail/v1/users/me/drafts/d1/send".toList =
      (false, "Sending email is blocked by proxy policy (use drafts instead)".toList) ∧
    validate_gmail_endpoint "PUT" "gmail/v1/users/me/history".toList =
      (false, "Endpoint not in allowlist: ".toList ++ (upperStr "PUT").toList ++
        ' ' :: "gmail/v1/users/me/history".toList) :=
  ⟨validate_gmail_endpoint_policy.1 "PATCH" "gmail/v1/users/me/drafts/d1/send".toList
      (["drafts", "d1", "send"].map String.toList) (by decide) (by decide),
   (validate_gmail_endpoint_policy.2.2.2.2.2 "PUT" "gmail/v1/users/me/history".toList
      (["history"].map String.toList) (by decide) (by decide) (by decide) (by decide)).1⟩

/-- Dropping a leading-whitespace prefix cannot consume a final
non-whitespace element. -/
theorem dropWhile_append_last (p : Char → Bool) :
    ∀ (xs : List Char) (c : Char), p c = false →
      (xs ++ [c]).dropWhile p = xs.dropWhile p ++ [c] := by
  intro xs
  induction xs with
  | nil => intro c hc; simp [List.dropWhile_cons, hc]
  | cons a t ih =>
    intro c hc
    by_cases hpa : p a <;> simp [List.dropWhile_cons, hpa, hc, ih c hc]

/-- Stripping preserves a non-whitespace head character. -/
theorem pyStrip_cons (c : Char) (l : List Char) (hc : isPyWs c = false) :
    pyStrip (c :: l) = c :: (l.reverse.dropWhile isPyWs).reverse := by
  unfold pyStrip
  rw [List.dropWhile_cons, hc]
  simp only [Bool.false_eq_true, if_false]
  rw [List.reverse_cons, dropWhile_append_last isPyWs l.reverse c hc]
  simp

/-- A branch name starting with a colon never matches the branch-name
pattern. -/
theorem branchPattern_colon (t : List Char) : branchPattern (':' :: t) = false := by
  cases t with
  | nil => decide
  | cons a s =>
    have h : (':'.isAlphanum) = false := by decide
    simp [branchPattern, h]

/-- A branch accepted by `validate_branch_name` matches the branch-name
pattern after stripping. -/
theorem validate_branch_true_pattern (b : List Char)
    (h : validate_branch_name b = (true, [])) : branchPattern (pyStrip b) = true := by
  unfold validate_branch_name at h
  split at h
  · exact absurd h (by simp)
  · dsimp only at h
    split at h
    · exact absurd h (by simp)
    · split at h
      · exact absurd h (by simp)
      · split at h
        · exact absurd h (by simp)
        · split at h
          · exact absurd h (by simp)
          · split at h
            · exact absurd h (by simp)
            · split at h
              · exact absurd h (by simp)
              · rename_i hg
                cases hq : branchPattern (pyStrip b)
                · exact absurd (by rw [hq]; rfl) hg
                · rfl

/-- The function `validate_branch_name` either accepts with an empty message or reports
invalid. -/
theorem validate_branch_cases (x : List Char) :
    validate_branch_name x = (true, []) ∨ (validate_branch_name x).1 = false := by
  unfold validate_branch_name
  split
  · right; rfl
  · dsimp only
    split
    · right; rfl
    · split
      · right; rfl
      · split
        · right; rfl
        · split
          · right; rfl
          · split
            · right; rfl
            · split
              · right; rfl
              · split
                · right; rfl
                · left; rfl

/-- If `validate_branch_name` reports valid, the result is exactly
`(true, "")`. -/
theorem validate_branch_fst_true (x : List Char)
    (h : (validate_branch_name x).1 = true) : validate_branch_name x = (true, []) := by
  rcases validate_branch_cases x with hc | hc
  · exact hc
  · rw [hc] at h
    exact absurd h (by simp)

/-- C10: every branch accepted by `validate_branch_name` yields a push
command `git push origin <branch>` that passes
`validate_push_command_safety`, so the `GIT_SAFETY_DANGEROUS_COMMAND`
branch of `push_bundle` is unreachable. -/
theorem validated_branch_push_safe :
    (∀ b : List Char, validate_branch_name b = (true, []) →
      validate_push_command_safety (["git", "push", "origin"].map String.toList ++ [b]) =
        (true, [])) ∧
    (∀ (req : PushReq) (orc : GitOrc),
      (push_bundle req orc).code ≠ some "GIT_SAFETY_DANGEROUS_COMMAND") := by
  have key : ∀ b : List Char, validate_branch_name b = (true, []) →
      validate_push_command_safety (["git", "push", "origin"].map String.toList ++ [b]) =
        (true, []) := by
    intro b hb
    have hflag : (DANGEROUS_PUSH_FLAGS.contains b) = false := by
      by_contra hc
      have hctrue : DANGEROUS_PUSH_FLAGS.contains b = true := by
        cases hq : DANGEROUS_PUSH_FLAGS.contains b
        · exact absurd hq hc
        · rfl
      have hc' : b ∈ DANGEROUS_PUSH_FLAGS := by simpa using hctrue
      have hd : b = "--force".toList ∨ b = "-f".toList ∨
          b = "--force-with-lease".toList ∨ b = "--delete".toList ∨
          b = "--mirror".toList ∨ b = "--force-if-includes".toList := by
        simpa [DANGEROUS_PUSH_FLAGS] using hc'
      rcases hd with rfl | rfl | rfl | rfl | rfl | rfl <;> exact absurd hb (by decide)
    have hcolonb : (startsWithL ":".toList b && decide (b.length > 1)) = false := by
      cases b with
      | nil => rfl
      | cons c t =>
        by_cases hcc : c = ':'
        · subst hcc
          exfalso
          have hpat := validate_branch_true_pattern _ hb
          rw [pyStrip_cons ':' t (by decide)] at hpat
          rw [branchPattern_colon] at hpat
          exact absurd hpat (by simp)
        · have hsw : startsWithL ":".toList (c :: t) = false := by
            have h1 : (':' == c) = false := beq_eq_false_iff_ne.mpr (fun hh => hcc hh.symm)
            simp [startsWithL, h1]
          rw [hsw, Bool.false_and]
    have hL : (["git", "push", "origin"].map String.toList ++ [b] : List (List Char)) =
        ["git".toList, "push".toList, "origin".toList, b] := rfl
    have hfind1 : (["git".toList, "push".toList, "origin".toList, b].find?
        (fun a => DANGEROUS_PUSH_FLAGS.contains a)) = none := by
      rw [List.find?_eq_none]
      intro x hx
      simp only [List.mem_cons, List.not_mem_nil, or_false] at hx
      rcases hx with rfl | rfl | rfl | rfl
      · decide
      · decide
      · decide
      · simpa using hflag
    have hfind2 : (["git".toList, "push".toList, "origin".toList, b].find?
        (fun a => startsWithL ":".toList a && decide (a.length > 1))) = none := by
      rw [List.find?_eq_none]
      intro x hx
      simp only [List.mem_cons, List.not_mem_nil, or_false] at hx
      rcases hx with rfl | rfl | rfl | rfl
      · decide
      · decide
      · decide
      · simpa using hcolonb
    unfold validate_push_command_safety
    rw [hL, hfind1, hfind2]
  refine ⟨key, ?_⟩
  intro req orc
  by_cases h0 : req.authOk
  · by_cases h1 : ((req.repo_url.getD []).isEmpty || (req.branch.getD []).isEmpty)
    · simp [push_bundle, h0, h1]
    · by_cases h2 : (validate_repo_url (req.repo_url.getD [])).1
      · by_cases h3 : (validate_branch_name (req.branch.getD [])).1
        · have hsafe := key _ (validate_branch_fst_true _ h3)
          simp only [List.map_cons, List.map_nil, List.cons_append, List.nil_append] at hsafe
          simp at hsafe
          by_cases h4 : ( is_protected_branch (req.branch.getD [])).1
          · simp [push_bundle, h0, h1, h2, h3, h4]
          · by_cases h5 : req.bundlePresent
            · by_cases h6 : orc.cloneOk
              · by_cases h7 : orc.fetchOk
                · by_cases h8 : orc.pushOk
                  · by_cases h9 : (req.create_pr && orc.ghAvailable)
                    · simp [push_bundle, h0, h1, h2, h3, h4, h5, h6, h7, h8, h9, hsafe]
                    · simp [push_bundle, h0, h1, h2, h3, h4, h5, h6, h7, h8, h9, hsafe]
                  · simp [push_bundle, h0, h1, h2, h3, h4, h5, h6, h7, h8, hsafe]
                · simp [push_bundle, h0, h1, h2, h3, h4, h5, h6, h7, hsafe]
              · simp [push_bundle, h0, h1, h2, h3, h4, h5, h6, hsafe]
            · simp [push_bundle, h0, h1, h2, h3, h4, h5]
        · simp [push_bundle, h0, h1, h2, h3]
      · simp [push_bundle, h0, h1, h2]
  · simp [push_bundle, h0]

/-- Witness for C10: the branch `feature/x-1` is accepted and its push
command passes the safety check. -/
theorem validated_branch_push_safe_witness :
    validate_push_command_safety
      (["git", "push", "origin"].map String.toList ++ ["feature/x-1".toList]) =
      (true, []) :=
  validated_branch_push_safe.1 "feature/x-1".toList (by decide)

/-- C3 counterexample: an ATProto credential with a cached stale session
whose refresh fails makes two network calls (refresh then createSession) in
that single getter invocation, not exactly one. -/
theorem token_refresh_single_call_counterexample :
    atStaleCred.session = some ⟨"jwtA", "jwtR", "did:x", "h.bsky", 100⟩ ∧
    ¬((0 : Int) + 300 < 100) ∧
    (getAtprotoToken 0 atStaleCred atFailNet).2.2 = [ATCall.refresh, ATCall.create] ∧
    (getAtprotoToken 0 atStaleCred atFailNet).2.2.length ≠ 1 := by
  refine ⟨rfl, by decide, rfl, by decide⟩

/-- C3 (amended): a cached token more than 5 minutes from expiry is served
with no network call, for both credential kinds; a stale OAuth2 token
triggers exactly one network call and the cache is replaced on success; a
stale ATProto session triggers exactly one network call when the refresh
succeeds, replacing the cache.  (When the ATProto refresh fails, a second
createSession call follows in the same invocation.) -/
theorem token_refresh_call_counts :
    (∀ (now : Int) (cred : ATCred) (net : ATNet) (s : ATProtoSession),
      cred.session = some s → now + 300 < s.expires_at →
      getAtprotoToken now cred net = (some s.access_jwt, cred, [])) ∧
    (∀ (now : Int) (cred : OAuthCred) (net : OAuthNet) (t : OAuth2Token),
      cred.token = some t → now + 300 < t.expires_at →
      getOauth2Token now cred net = (some t.access_token, cred, 0)) ∧
    (∀ (now : Int) (cred : OAuthCred) (net : OAuthNet) (t : OAuth2Token),
      cred.token = some t → ¬(now + 300 < t.expires_at) →
      optStrTruthy cred.client_id = true → optStrTruthy cred.client_secret = true →
      optStrTruthy cred.refresh_token = true →
      (getOauth2Token now cred net).2.2 = 1) ∧
    (∀ (now : Int) (cred : OAuthCred) (net : OAuthNet) (t : OAuth2Token)
      (tok : String) (ein : Option Int),
      cred.token = some t → ¬(now + 300 < t.expires_at) →
      optStrTruthy cred.client_id = true → optStrTruthy cred.client_secret = true →
      optStrTruthy cred.refresh_token = true →
      net.refreshResult = some (tok, ein) →
      getOauth2Token now cred net =
        (some tok, { cred with token := some ⟨tok, now + ein.getD 3600⟩ }, 1)) ∧
    (∀ (now : Int) (cred : ATCred) (net : ATNet) (s : ATProtoSession) (d : ATData),
      cred.session = some s → ¬(now + 300 < s.expires_at) →
      net.refreshResult = some d →
      getAtprotoToken now cred net =
        (some d.accessJwt,
         { cred with session := some ⟨d.accessJwt, d.refreshJwt, d.did, d.handle, now + 7200⟩ },
         [ATCall.refresh])) := by
  refine ⟨?_, ?_, ?_, ?_, ?_⟩
  · intro now cred net s hs hfresh
    simp [getAtprotoToken, hs, hfresh]
  · intro now cred net t ht hfresh
    simp [getOauth2Token, ht, hfresh]
  · intro now cred net t ht hfresh h1 h2 h3
    cases hr : net.refreshResult with
    | some pr =>
      obtain ⟨tok, ein⟩ := pr
      simp [getOauth2Token, refreshOauth2Token, ht, hfresh, h1, h2, h3, hr]
    | none =>
      simp [getOauth2Token, refreshOauth2Token, ht, hfresh, h1, h2, h3, hr]
  · intro now cred net t tok ein ht hfresh h1 h2 h3 hr
    simp [getOauth2Token, refreshOauth2Token, ht, hfresh, h1, h2, h3, hr]
  · intro now cred net s d hs hfresh hr
    simp [getAtprotoToken, refreshAtprotoSession, hs, hfresh, hr]

/-- Witness for C3 (amended): a session expiring at 5000 is served from
cache at time 0 with no network call. -/
theorem token_refresh_call_counts_witness :
    getAtprotoToken 0 ⟨some "id", some "pw", some ⟨"a", "r", "d", "h", 5000⟩⟩ atFailNet =
      (some "a", ⟨some "id", some "pw", some ⟨"a", "r", "d", "h", 5000⟩⟩, []) :=
  token_refresh_call_counts.1 0 _ atFailNet ⟨"a", "r", "d", "h", 5000⟩ rfl (by decide)

/-- C4 counterexample: when the ATProto refresh network call fails, the
getter does not return None for that call — it re-authenticates with a
createSession call in the same invocation and returns the new token, and
the cache ends up populated rather than cleared. -/
theorem refresh_failure_returns_none_counterexample :
    atFailNet.refreshResult = none ∧
    (getAtprotoToken 0 atStaleCred atFailNet).1 = some "jwtA2" ∧
    (getAtprotoToken 0 atStaleCred atFailNet).1 ≠ none ∧
    (getAtprotoToken 0 atStaleCred atFailNet).2.1.session ≠ none := by
  refine ⟨rfl, rfl, by decide, by decide⟩

/-- C4 (amended): on OAuth2 refresh failure the cache is cleared and the
getter returns None; on ATProto refresh failure the cached session is
cleared and a full createSession re-authentication is attempted within the
same call — the getter returns None (with the cache left cleared) only when
that second call also fails. -/
theorem token_refresh_failure_behaviour :
    (∀ (now : Int) (cred : OAuthCred) (net : OAuthNet) (t : OAuth2Token),
      cred.token = some t → ¬(now + 300 < t.expires_at) →
      optStrTruthy cred.client_id = true → optStrTruthy cred.client_secret = true →
      optStrTruthy cred.refresh_token = true → net.refreshResult = none →
      getOauth2Token now cred net = (none, { cred with token := none }, 1)) ∧
    (∀ (now : Int) (cred : ATCred) (net : ATNet) (s : ATProtoSession),
      cred.session = some s → ¬(now + 300 < s.expires_at) →
      net.refreshResult = none →
      optStrTruthy cred.identifier = true → optStrTruthy cred.app_password = true →
      net.createResult = none →
      getAtprotoToken now cred net =
        (none, { cred with session := none }, [ATCall.refresh, ATCall.create])) ∧
    (∀ (now : Int) (cred : ATCred) (net : ATNet) (s : ATProtoSession) (d : ATData),
      cred.session = some s → ¬(now + 300 < s.expires_at) →
      net.refreshResult = none →
      optStrTruthy cred.identifier = true → optStrTruthy cred.app_password = true →
      net.createResult = some d →
      getAtprotoToken now cred net =
        (some d.accessJwt,
         { cred with session := some ⟨d.accessJwt, d.refreshJwt, d.did, d.handle, now + 7200⟩ },
         [ATCall.refresh, ATCall.create])) := by
  refine ⟨?_, ?_, ?_⟩
  · intro now cred net t ht hfresh h1 h2 h3 hr
    simp [getOauth2Token, refreshOauth2Token, ht, hfresh, h1, h2, h3, hr]
  · intro now cred net s hs hfresh hr h1 h2 hc
    simp [getAtprotoToken, refreshAtprotoSession, createAtprotoSession, hs, hfresh,
      hr, h1, h2, hc]
  · intro now cred net s d hs hfresh hr h1 h2 hc
    simp [getAtprotoToken, refreshAtprotoSession, createAtprotoSession, hs, hfresh,
      hr, h1, h2, hc]

/-- Witness for C4 (amended): a stale OAuth2 token whose refresh fails
yields None with the cache cleared after exactly one call. -/
theorem token_refresh_failure_behaviour_witness :
    getOauth2Token 0 ⟨some "c", some "s", some "r", some ⟨"t", 100⟩⟩ ⟨none⟩ =
      (none, ⟨some "c", some "s", some "r", none⟩, 1) :=
  token_refresh_failure_behaviour.1 0 ⟨some "c", some "s", some "r", some ⟨"t", 100⟩⟩
    ⟨none⟩ ⟨"t", 100⟩ rfl (by decide) rfl rfl rfl rfl

/-- A matched pattern is a prefix: the haystack decomposes. -/
theorem startsWith_decomp (p : List Char) :
    ∀ u, startsWithL p u = true → u = p ++ u.drop p.length := by
  induction p with
  | nil => intro u _; simp
  | cons a as ih =>
    intro u h
    cases u with
    | nil => exact absurd h (by simp [startsWithL])
    | cons b bs =>
      simp only [startsWithL, Bool.and_eq_true, beq_iff_eq] at h
      obtain ⟨hab, hrest⟩ := h
      subst hab
      have hbs := ih bs hrest
      simp only [List.length_cons, List.drop_succ_cons, List.cons_append]
      exact congrArg (List.cons a) hbs

/-- The prefix `takeWhile p l` and the matching `drop` reassemble the list. -/
theorem takeWhile_append_drop (p : Char → Bool) (l : List Char) :
    l.takeWhile p ++ l.drop (l.takeWhile p).length = l := by
  induction l with
  | nil => rfl
  | cons a t ih =>
    by_cases hpa : p a
    · simp [List.takeWhile_cons, hpa, ih]
    · simp [List.takeWhile_cons, hpa]

/-- Decomposition of a string accepted by `ownerRepoMatch`. -/
theorem ownerRepoMatch_decomp (l : List Char) (h : ownerRepoMatch l = true) :
    ∃ o r, l = o ++ '/' :: r ∧ o ≠ [] ∧ r ≠ [] ∧
      (∀ c ∈ o, ownerRepoChar c = true) ∧ (∀ c ∈ r, ownerRepoChar c = true) := by
  unfold ownerRepoMatch at h
  dsimp only at h
  split at h
  · rename_i r heq
    simp only [Bool.and_eq_true] at h
    obtain ⟨⟨⟨h1, h2⟩, h3⟩, h4⟩ := h
    have hself := takeWhile_append_drop (fun c => c != '/') l
    refine ⟨l.takeWhile (fun c => c != '/'), r, ?_, ?_, ?_, ?_, ?_⟩
    · conv_lhs => rw [← hself]
      rw [heq]
    · intro h0
      rw [h0] at h1
      exact absurd h1 (by decide)
    · intro h0
      rw [h0] at h3
      exact absurd h3 (by decide)
    · intro c hc
      exact List.all_eq_true.mp h2 c hc
    · intro c hc
      exact List.all_eq_true.mp h4 c hc
  · exact absurd h (by simp)

/-- Every metacharacter fails the owner/repo character class. -/
theorem mem_meta_not_ownerRepo : ∀ c ∈ META_CHARS, ownerRepoChar c = false := by decide

/-- Owner/repo characters are never shell metacharacters. -/
theorem ownerRepoChar_not_meta (c : Char) (h : ownerRepoChar c = true) :
    isMeta c = false := by
  cases hq : isMeta c
  · rfl
  · have hm : c ∈ META_CHARS := by simpa [isMeta] using hq
    rw [mem_meta_not_ownerRepo c hm] at h
    exact absurd h (by simp)

/-- Owner/repo characters are never `@`. -/
theorem ownerRepoChar_ne_at (c : Char) (h : ownerRepoChar c = true) : c ≠ '@' := by
  intro he
  rw [he] at h
  exact absurd h (by decide)

/-- A haystack matching a cons pattern starts with the pattern's head. -/
theorem startsWith_cons_head (c : Char) (p u : List Char)
    (h : startsWithL (c :: p) u = true) : ∃ t, u = c :: t := by
  cases u with
  | nil => exact absurd h (by simp [startsWithL])
  | cons b bs =>
    simp only [startsWithL, Bool.and_eq_true, beq_iff_eq] at h
    exact ⟨bs, by rw [h.1]⟩

/-- The head character of a substring occurs in the haystack. -/
theorem hasSub_head_mem (c : Char) (n : List Char) :
    ∀ s, hasSub (c :: n) s = true → c ∈ s := by
  intro s
  induction s with
  | nil => intro h; exact absurd h (by simp [hasSub])
  | cons a t ih =>
    intro h
    simp only [hasSub, Bool.or_eq_true] at h
    rcases h with h | h
    · obtain ⟨u, hu⟩ := startsWith_cons_head c n (a :: t) h
      rw [hu]
      exact List.mem_cons_self c u
    · exact List.mem_cons_of_mem a (ih h)

/-- The function `dropWhile` keeps every element that fails the predicate. -/
theorem mem_dropWhile_of_not (p : Char → Bool) (c : Char) (hc : p c = false) :
    ∀ l : List Char, c ∈ l → c ∈ l.dropWhile p := by
  intro l
  induction l with
  | nil => intro h; exact absurd h (List.not_mem_nil c)
  | cons a t ih =>
    intro h
    by_cases hpa : p a
    · rw [List.dropWhile_cons_of_pos hpa]
      rcases List.mem_cons.mp h with rfl | h2
      · rw [hpa] at hc
        exact absurd hc (by simp)
      · exact ih h2
    · rw [List.dropWhile_cons_of_neg hpa]
      exact h

/-- Stripping keeps every non-whitespace element. -/
theorem mem_pyStrip (c : Char) (hc : isPyWs c = false) (l : List Char)
    (h : c ∈ l) : c ∈ pyStrip l := by
  unfold pyStrip
  rw [List.mem_reverse]
  apply mem_dropWhile_of_not isPyWs c hc
  rw [List.mem_reverse]
  exact mem_dropWhile_of_not isPyWs c hc l h

/-- Case split for a true boolean disjunction. -/
theorem or_true_cases (a b : Bool) (h : (a || b) = true) : a = true ∨ b = true := by
  cases a <;> cases b <;> simp_all

/-- Components of a true boolean conjunction. -/
theorem and_true_cases (a b : Bool) (h : (a && b) = true) : a = true ∧ b = true := by
  cases a <;> cases b <;> simp_all

/-- A string matching either GitHub URL pattern passes all the rejection
guards of `validate_repo_url`: it is nonempty, has no shell metacharacter,
passes the embedded-credential check, and is not a local path. -/
theorem githubUrlMatch_guards (u : List Char) (h : githubUrlMatch u = true) :
    u ≠ [] ∧ u.any isMeta = false ∧
    (u.elem '@' && !startsWithL "git@".toList u) = false ∧
    startsWithL "/".toList u = false ∧ startsWithL "file://".toList u = false ∧
    startsWithL ".".toList u = false := by
  rcases or_true_cases _ _ h with hh | hs
  · obtain ⟨hpre, hor⟩ := and_true_cases _ _ hh
    obtain ⟨o, r, hsplit, hone, hrne, hoall, hrall⟩ := ownerRepoMatch_decomp _ hor
    have hlen : ("https://github.com/".toList).length = 19 := rfl
    have hdec := startsWith_decomp _ u hpre
    rw [hlen, hsplit] at hdec
    have hmem : ∀ c ∈ u, c ∈ "https://github.com/".toList ∨ c ∈ o ∨ c = '/' ∨ c ∈ r := by
      intro c hc
      rw [hdec] at hc
      simp only [List.mem_append, List.mem_cons] at hc
      tauto
    have hPmeta : ∀ c ∈ "https://github.com/".toList, isMeta c = false := by decide
    have hPat : ∀ c ∈ "https://github.com/".toList, c ≠ '@' := by decide
    have hcfacts : ∀ c ∈ u, isMeta c = false ∧ c ≠ '@' := by
      intro c hc
      rcases hmem c hc with h1 | h1 | rfl | h1
      · exact ⟨hPmeta c h1, hPat c h1⟩
      · exact ⟨ownerRepoChar_not_meta c (hoall c h1), ownerRepoChar_ne_at c (hoall c h1)⟩
      · exact ⟨by decide, by decide⟩
      · exact ⟨ownerRepoChar_not_meta c (hrall c h1), ownerRepoChar_ne_at c (hrall c h1)⟩
    have hne : u ≠ [] := by rw [hdec]; simp
    have hany : u.any isMeta = false := by
      cases hq : u.any isMeta
      · rfl
      · obtain ⟨c, hc, hcm⟩ := List.any_eq_true.mp hq
        rw [(hcfacts c hc).1] at hcm
        exact absurd hcm (by simp)
    have helem : u.elem '@' = false := by
      cases hq : u.elem '@'
      · rfl
      · have hmm : '@' ∈ u := by simpa using hq
        exact absurd rfl ((hcfacts '@' hmm).2)
    have hP : "https://github.com/".toList = 'h' :: "ttps://github.com/".toList := rfl
    rw [hP] at hpre
    obtain ⟨t, ht⟩ := startsWith_cons_head _ _ _ hpre
    refine ⟨hne, hany, ?_, ?_, ?_, ?_⟩
    · rw [helem]
      rfl
    · rw [ht]
      have hch : ('/' == 'h') = false := by decide
      simp [startsWithL, hch]
    · rw [ht]
      have hch : ('f' == 'h') = false := by decide
      simp [startsWithL, hch]
    · rw [ht]
      have hch : ('.' == 'h') = false := by decide
      simp [startsWithL, hch]
  · obtain ⟨hpre, hor⟩ := and_true_cases _ _ hs
    obtain ⟨o, r, hsplit, hone, hrne, hoall, hrall⟩ := ownerRepoMatch_decomp _ hor
    have hlen : ("git@github.com:".toList).length = 15 := rfl
    have hdec := startsWith_decomp _ u hpre
    rw [hlen, hsplit] at hdec
    have hmem : ∀ c ∈ u, c ∈ "git@github.com:".toList ∨ c ∈ o ∨ c = '/' ∨ c ∈ r := by
      intro c hc
      rw [hdec] at hc
      simp only [List.mem_append, List.mem_cons] at hc
      tauto
    have hPmeta : ∀ c ∈ "git@github.com:".toList, isMeta c = false := by decide
    have hmetau : ∀ c ∈ u, isMeta c = false := by
      intro c hc
      rcases hmem c hc with h1 | h1 | rfl | h1
      · exact hPmeta c h1
      · exact ownerRepoChar_not_meta c (hoall c h1)
      · decide
      · exact ownerRepoChar_not_meta c (hrall c h1)
    have hne : u ≠ [] := by rw [hdec]; simp
    have hany : u.any isMeta = false := by
      cases hq : u.any isMeta
      · rfl
      · obtain ⟨c, hc, hcm⟩ := List.any_eq_true.mp hq
        rw [hmetau c hc] at hcm
        exact absurd hcm (by simp)
    have hgitat : startsWithL "git@".toList u = true := by
      rw [hdec]
      exact startsWith_append_right _ _ _ (by decide)
    have hP : "git@github.com:".toList = 'g' :: "it@github.com:".toList := rfl
    rw [hP] at hpre
    obtain ⟨t, ht⟩ := startsWith_cons_head _ _ _ hpre
    refine ⟨hne, hany, ?_, ?_, ?_, ?_⟩
    · rw [hgitat]
      simp
    · rw [ht]
      have hch : ('/' == 'g') = false := by decide
      simp [startsWithL, hch]
    · rw [ht]
      have hch : ('f' == 'g') = false := by decide
      simp [startsWithL, hch]
    · rw [ht]
      have hch : ('.' == 'g') = false := by decide
      simp [startsWithL, hch]

/-- The function `validate_repo_url` accepts exactly the strings whose Python-stripped
form matches one of the two GitHub URL patterns. -/
theorem validate_repo_url_iff (s : List Char) :
    validate_repo_url s = (true, []) ↔ githubUrlMatch (pyStrip s) = true := by
  constructor
  · intro h
    unfold validate_repo_url at h
    split at h
    · exact absurd h (by simp)
    · dsimp only at h
      split at h
      · exact absurd h (by simp)
      · split at h
        · exact absurd h (by simp)
        · split at h
          · exact absurd h (by simp)
          · split at h
            · rename_i hh
              unfold githubUrlMatch
              rw [hh, Bool.true_or]
            · split at h
              · rename_i hss
                unfold githubUrlMatch
                rw [hss, Bool.or_true]
              · exact absurd h (by simp)
  · intro h
    obtain ⟨hne, hmeta, hat, h1, h2, h3⟩ := githubUrlMatch_guards _ h
    have hsne : s ≠ [] := by
      intro hs0
      rw [hs0] at h
      exact absurd h (by decide)
    have hempties : (s.isEmpty || (pyStrip s).isEmpty) = false := by
      cases hq : s.isEmpty
      · cases hq2 : (pyStrip s).isEmpty
        · rfl
        · exact absurd (by simpa using hq2) hne
      · exact absurd (by simpa using hq) hsne
    unfold validate_repo_url
    rw [hempties]
    simp only [Bool.false_eq_true, if_false]
    rw [hmeta]
    simp only [Bool.false_eq_true, if_false]
    rw [hat]
    simp only [Bool.false_eq_true, if_false]
    rw [h1, h2, h3]
    simp only [Bool.or_self, Bool.false_eq_true, if_false]
    rcases or_true_cases _ _ h with hh | hs'
    · rw [hh]
      simp only [eq_self_iff_true, if_true]
    · cases hq : githubHttpsMatch (pyStrip s)
      · simp only [Bool.false_eq_true, if_false]
        rw [hs']
        simp only [eq_self_iff_true, if_true]
      · simp only [eq_self_iff_true, if_true]

/-- C6 counterexample: a URL with a leading space is accepted by
`validate_repo_url` although it does not itself match either GitHub URL
pattern — acceptance is decided on the stripped string, so the claimed
"exactly the strings matching the pattern" fails. -/
theorem validate_repo_url_exact_match_counterexample :
    validate_repo_url " https://github.com/a/b".toList = (true, []) ∧
    githubUrlMatch " https://github.com/a/b".toList = false := by
  exact ⟨by decide, by decide⟩

/-- C6 (amended): `validate_repo_url` returns `(true, "")` exactly for
strings whose Python-stripped form matches
`https://github.com/owner/repo[.git]` or `git@github.com:owner/repo[.git]`
with owner and repo over alphanumerics, dot, underscore and hyphen; the
concrete acceptance and rejection examples behave as claimed, and any
string containing a semicolon, backquote, or dollar-paren is rejected with
a nonempty message. -/
theorem validate_repo_url_spec :
    (∀ s : List Char, validate_repo_url s = (true, []) ↔ githubUrlMatch (pyStrip s) = true) ∧
    validate_repo_url "https://github.com/a/b.git".toList = (true, []) ∧
    ((validate_repo_url "/tmp/x".toList).1 = false ∧
      (validate_repo_url "/tmp/x".toList).2 ≠ []) ∧
    ((validate_repo_url "javascript:...".toList).1 = false ∧
      (validate_repo_url "javascript:...".toList).2 ≠ []) ∧
    (∀ s : List Char,
      hasSub ";".toList s = true ∨ hasSub "\x60".toList s = true ∨
        hasSub "$(".toList s = true →
      (validate_repo_url s).1 = false ∧ (validate_repo_url s).2 ≠ []) := by
  refine ⟨validate_repo_url_iff, by decide, ⟨by decide, by decide⟩,
    ⟨by decide, by decide⟩, ?_⟩
  intro s hsub
  have hex : ∃ c, c ∈ s ∧ isMeta c = true ∧ isPyWs c = false := by
    rcases hsub with h | h | h
    · exact ⟨';', hasSub_head_mem _ _ s h, by decide, by decide⟩
    · exact ⟨'\x60', hasSub_head_mem _ _ s h, by decide, by decide⟩
    · exact ⟨'$', hasSub_head_mem _ _ s h, by decide, by decide⟩
  obtain ⟨c, hcs, hcm, hcw⟩ := hex
  have hmem := mem_pyStrip c hcw s hcs
  have hany : (pyStrip s).any isMeta = true := List.any_eq_true.mpr ⟨c, hmem, hcm⟩
  have hsne : s ≠ [] := List.ne_nil_of_mem hcs
  have hpne : pyStrip s ≠ [] := List.ne_nil_of_mem hmem
  have hempties : (s.isEmpty || (pyStrip s).isEmpty) = false := by
    cases hq : s.isEmpty
    · cases hq2 : (pyStrip s).isEmpty
      · rfl
      · exact absurd (by simpa using hq2) hpne
    · exact absurd (by simpa using hq) hsne
  have heq : validate_repo_url s =
      (false, "Repository URL contains invalid characters".toList) := by
    unfold validate_repo_url
    rw [hempties]
    simp only [Bool.false_eq_true, if_false]
    rw [hany]
    simp only [eq_self_iff_true, if_true]
  rw [heq]
  exact ⟨rfl, by decide⟩

/-- Witness for C6 (amended): the string `a;b` contains a semicolon and is
rejected with a nonempty message. -/
theorem validate_repo_url_spec_witness :
    (validate_repo_url "a;b".toList).1 = false ∧
    (validate_repo_url "a;b".toList).2 ≠ [] :=
  validate_repo_url_spec.2.2.2.2 "a;b".toList (Or.inl (by decide))
